import Mathlib

/-!
# The C++ wrapper of lodepng (`namespace lodepng` of `vendor/lodepng.cpp`)

The translation unit declares the C core (`lodepng_decode_memory`,
`lodepng_encode`, `zlib_compress`, the file helpers, ...) as `extern "C"`
functions and defines, on top of them, the `std::vector` based wrappers
`load_file`, `save_file`, `compress`, `decompress`, `decode` and `encode`.

The embedding below follows the wrappers statement by statement.

* A `std::vector<unsigned char>` is a `List Byte`.
* The functions that are only declared are the fields of `Core`: each field
  maps the arguments of one call to the values the call leaves in its
  out-parameters and to its return value.  Nothing is assumed about them,
  except where a theorem names a contract the spec gives for them.
* A pointer that the wrapper only forwards (`const unsigned char* in`) is
  `InPtr`: null, or the block of bytes it points to.  A pointer that the
  wrapper reads through (`unsigned char* buffer`) is `Ptr`: null, or the byte
  found at every offset from it, so that `[&buffer[0], &buffer[n])` is defined
  for every `n`; the bounds of the allocation behind it are not modelled.
* Every call of a declared function is recorded, in order and with its
  arguments, in the `calls` field of the wrapper's result.
* `unsigned` is a 32 bit integer, `size_t` is at least as wide as `long`.
-/

namespace lodepng

/-- One `unsigned char`. -/
abbrev Byte := Nat

/-- Memory seen through a non-null `unsigned char*`: the byte at each offset. -/
abbrev Buffer := Nat → Byte

/-- An `unsigned char*` the wrapper reads through; `none` is the null pointer. -/
abbrev Ptr := Option Buffer

/-- A `const unsigned char*` the wrapper only forwards; `none` is the null pointer. -/
abbrev InPtr := Option (List Byte)

/-- The enum `LodePNGColorType` (declared in lodepng.h), by its integer value. -/
abbrev LodePNGColorType := Nat

/-- The struct `LodePNGColorMode` (declared in lodepng.h): the two fields the
wrapper assigns, and the remaining fields kept together in `rest`. -/
structure LodePNGColorMode (R : Type) where
  colortype : LodePNGColorType
  bitdepth : Nat
  rest : R

/-- The class `lodepng::State` (a `LodePNGState`, declared in lodepng.h): the
field `info_raw` the wrapper uses, and the remaining fields in `rest`. -/
structure State (R T : Type) where
  info_raw : LodePNGColorMode R
  rest : T

/-- Out-parameters and return value of a core call that hands back a byte
buffer with its size (`zlib_compress`, `zlib_decompress`, `lodepng_encode`,
`lodepng_encode_memory`). -/
structure CoreBytes where
  buffer : Ptr
  buffersize : Nat
  error : Nat

/-- Modelled from the spec: the byte producing core functions
(`zlib_compress`, `zlib_decompress`, `lodepng_encode`,
`lodepng_encode_memory`) are only declared in this translation unit, so
what they hand back is taken from the spec, whose core "returns in-memory
byte buffers or a structured error code": a call that returns a non-zero
error code hands back no buffer. -/
def CoreBytes.bytesOrError (c : CoreBytes) : Bool :=
  c.error == 0 || c.buffer.isNone

/-- Out-parameters and return value of a core call that hands back a pixel
buffer and the image dimensions (`lodepng_decode`, `lodepng_decode_memory`). -/
structure CoreImage where
  buffer : Ptr
  w : Nat
  h : Nat
  error : Nat

/-- The functions the translation unit declares and does not define. -/
structure Core (R T DS CS : Type) where
  /-- Reads `long lodepng_filesize(filename)`. -/
  lodepng_filesize : String → Int
  /-- Reads `lodepng_buffer_file(out, size, filename)`: from the block `out`
  points to, the error code and the bytes stored at the start of the block. -/
  lodepng_buffer_file : List Byte → Nat → String → Nat × List Byte
  /-- Reads `lodepng_save_file(buffer, buffersize, filename)`. -/
  lodepng_save_file : InPtr → Nat → String → Nat
  /-- Reads `zlib_decompress(&buffer, &buffersize, in, insize, &settings)`,
  called with `buffer = 0` and `buffersize = 0`. -/
  zlib_decompress : InPtr → Nat → DS → CoreBytes
  /-- Reads `zlib_compress(&buffer, &buffersize, in, insize, &settings)`,
  called with `buffer = 0` and `buffersize = 0`. -/
  zlib_compress : InPtr → Nat → CS → CoreBytes
  /-- Reads `lodepng_get_raw_size_lct(w, h, colortype, bitdepth)`. -/
  lodepng_get_raw_size_lct : Nat → Nat → LodePNGColorType → Nat → Nat
  /-- Reads `lodepng_get_raw_size(w, h, color)`. -/
  lodepng_get_raw_size : Nat → Nat → LodePNGColorMode R → Nat
  /-- Reads `lodepng_decode(&buffer, &w, &h, &state, in, insize)`; the first
  two arguments are the values of `w` and `h` before the call. -/
  lodepng_decode : Nat → Nat → State R T → InPtr → Nat → CoreImage × State R T
  /-- Reads `lodepng_decode_memory(&buffer, &w, &h, in, insize, colortype,
  bitdepth)`; the first two arguments are the values of `w` and `h` before the
  call. -/
  lodepng_decode_memory : Nat → Nat → InPtr → Nat → LodePNGColorType → Nat → CoreImage
  /-- The state `lodepng_state_init` leaves in a `State` under construction. -/
  lodepng_state_init : State R T
  /-- Reads `lodepng_encode(&buffer, &buffersize, image, w, h, &state)`. -/
  lodepng_encode : InPtr → Nat → Nat → State R T → CoreBytes × State R T
  /-- Reads `lodepng_encode_memory(&buffer, &buffersize, image, w, h,
  colortype, bitdepth)`. -/
  lodepng_encode_memory : InPtr → Nat → Nat → LodePNGColorType → Nat → CoreBytes

/-- One call of a declared function, with its arguments. -/
inductive Call (R T DS CS : Type) where
  | lodepng_free (p : Ptr)
  | lodepng_filesize (filename : String)
  | lodepng_buffer_file (out : List Byte) (size : Nat) (filename : String)
  | lodepng_save_file (buffer : InPtr) (buffersize : Nat) (filename : String)
  | zlib_decompress (inp : InPtr) (insize : Nat) (settings : DS)
  | zlib_compress (inp : InPtr) (insize : Nat) (settings : CS)
  | lodepng_get_raw_size_lct (w h : Nat) (colortype : LodePNGColorType) (bitdepth : Nat)
  | lodepng_get_raw_size (w h : Nat) (color : LodePNGColorMode R)
  | lodepng_decode (w h : Nat) (state : State R T) (inp : InPtr) (insize : Nat)
  | lodepng_decode_memory (w h : Nat) (inp : InPtr) (insize : Nat)
      (colortype : LodePNGColorType) (bitdepth : Nat)
  | lodepng_state_init
  | lodepng_state_cleanup (state : State R T)
  | lodepng_encode (image : InPtr) (w h : Nat) (state : State R T)
  | lodepng_encode_memory (image : InPtr) (w h : Nat)
      (colortype : LodePNGColorType) (bitdepth : Nat)

/-- Whether the call is one of the core encoder, `lodepng_encode` or
`lodepng_encode_memory`. -/
def Call.isCoreEncoder {R T DS CS : Type} : Call R T DS CS → Bool
  | .lodepng_encode _ _ _ _ => true
  | .lodepng_encode_memory _ _ _ _ _ => true
  | _ => false

/-- Whether the call is `lodepng_save_file`. -/
def Call.isSaveFile {R T DS CS : Type} : Call R T DS CS → Bool
  | .lodepng_save_file _ _ _ => true
  | _ => false

/-- Whether the call is `lodepng_buffer_file`. -/
def Call.isBufferFile {R T DS CS : Type} : Call R T DS CS → Bool
  | .lodepng_buffer_file _ _ _ => true
  | _ => false

/-- The bytes of the range `[&buffer[0], &buffer[n])`. -/
def readBytes (buffer : Buffer) (n : Nat) : List Byte :=
  (List.range n).map buffer

/-- Reads `v.empty() ? 0 : &v[0]`. -/
def dataOrNull (v : List Byte) : InPtr :=
  if v.isEmpty then none else some v

/-- Reads `buffer.resize(n)`: the first `n` elements are kept, elements that
are missing are value-initialised. -/
def resize (buffer : List Byte) (n : Nat) : List Byte :=
  buffer.take n ++ List.replicate (n - buffer.length) 0

/-- The block `block` after `stored` has been written at its start; a block
does not change its length. -/
def writeBack (block stored : List Byte) : List Byte :=
  stored.take block.length ++ block.drop stored.length

/-- The conversion `(unsigned)n` of a `size_t`. -/
def toUnsigned (n : Nat) : Nat :=
  n % 2 ^ 32

/-- What `load_file` leaves behind: return value, `buffer`, calls made. -/
structure LoadResult (R T DS CS : Type) where
  error : Nat
  buffer : List Byte
  calls : List (Call R T DS CS)

/-- What `save_file` and the file overloads of `encode` leave behind. -/
structure SaveResult (R T DS CS : Type) where
  error : Nat
  calls : List (Call R T DS CS)

/-- What `compress`, `decompress` and the memory overloads of `encode` leave
behind: return value, `out`, calls made. -/
structure OutResult (R T DS CS : Type) where
  error : Nat
  out : List Byte
  calls : List (Call R T DS CS)

/-- What `decode` leaves behind: return value, `out`, `w`, `h`, calls made. -/
structure DecodeResult (R T DS CS : Type) where
  error : Nat
  out : List Byte
  w : Nat
  h : Nat
  calls : List (Call R T DS CS)

section wrapper

variable {R T DS CS : Type}

/-- Embeds `unsigned load_file(std::vector<unsigned char>& buffer, const std::string& filename)`. -/
def load_file (core : Core R T DS CS) (buffer : List Byte) (filename : String) :
    LoadResult R T DS CS :=
  let size : Int := core.lodepng_filesize filename
  if size < 0 then
    ⟨78, buffer, [.lodepng_filesize filename]⟩
  else
    let buffer1 := resize buffer size.toNat
    if size = 0 then
      ⟨0, buffer1, [.lodepng_filesize filename]⟩
    else
      let r := core.lodepng_buffer_file buffer1 size.toNat filename
      ⟨r.1, writeBack buffer1 r.2,
        [.lodepng_filesize filename, .lodepng_buffer_file buffer1 size.toNat filename]⟩

/-- Embeds `unsigned save_file(const std::vector<unsigned char>& buffer, const std::string& filename)`. -/
def save_file (core : Core R T DS CS) (buffer : List Byte) (filename : String) :
    SaveResult R T DS CS :=
  ⟨core.lodepng_save_file (dataOrNull buffer) buffer.length filename,
    [.lodepng_save_file (dataOrNull buffer) buffer.length filename]⟩

/-- The block shared by `compress`, `decompress` and the memory overloads of
`encode` after the core call: `if(buffer) { out.insert(out.end(), &buffer[0],
&buffer[buffersize]); lodepng_free(buffer); } return error;`. -/
def appendIfBuffer (c : CoreBytes) (out : List Byte) (call : Call R T DS CS) :
    OutResult R T DS CS :=
  match c.buffer with
  | some b => ⟨c.error, out ++ readBytes b c.buffersize, [call, .lodepng_free (some b)]⟩
  | none => ⟨c.error, out, [call]⟩

/-- Embeds `unsigned decompress(std::vector<unsigned char>& out, const unsigned char* in, size_t insize, const LodePNGDecompressSettings& settings)`. -/
def decompress (core : Core R T DS CS) (out : List Byte) (inp : InPtr) (insize : Nat)
    (settings : DS) : OutResult R T DS CS :=
  appendIfBuffer (core.zlib_decompress inp insize settings) out
    (.zlib_decompress inp insize settings)

/-- Embeds `unsigned decompress(std::vector<unsigned char>& out, const std::vector<unsigned char>& in, const LodePNGDecompressSettings& settings)`. -/
def decompress_vec (core : Core R T DS CS) (out : List Byte) (inp : List Byte)
    (settings : DS) : OutResult R T DS CS :=
  decompress core out (dataOrNull inp) inp.length settings

/-- Embeds `unsigned compress(std::vector<unsigned char>& out, const unsigned char* in, size_t insize, const LodePNGCompressSettings& settings)`. -/
def compress (core : Core R T DS CS) (out : List Byte) (inp : InPtr) (insize : Nat)
    (settings : CS) : OutResult R T DS CS :=
  appendIfBuffer (core.zlib_compress inp insize settings) out
    (.zlib_compress inp insize settings)

/-- Embeds `unsigned compress(std::vector<unsigned char>& out, const std::vector<unsigned char>& in, const LodePNGCompressSettings& settings)`. -/
def compress_vec (core : Core R T DS CS) (out : List Byte) (inp : List Byte)
    (settings : CS) : OutResult R T DS CS :=
  compress core out (dataOrNull inp) inp.length settings

/-- Embeds `unsigned decode(std::vector<unsigned char>& out, unsigned& w, unsigned& h, const unsigned char* in, size_t insize, LodePNGColorType colortype, unsigned bitdepth)`. -/
def decode (core : Core R T DS CS) (out : List Byte) (w h : Nat) (inp : InPtr)
    (insize : Nat) (colortype : LodePNGColorType) (bitdepth : Nat) :
    DecodeResult R T DS CS :=
  let c := core.lodepng_decode_memory w h inp insize colortype bitdepth
  match c.buffer with
  | some b =>
    if c.error = 0 then
      let state0 : State R T := core.lodepng_state_init
      let state : State R T :=
        { state0 with info_raw := { state0.info_raw with colortype := colortype, bitdepth := bitdepth } }
      let buffersize := core.lodepng_get_raw_size c.w c.h state.info_raw
      ⟨c.error, out ++ readBytes b buffersize, c.w, c.h,
        [.lodepng_decode_memory w h inp insize colortype bitdepth,
         .lodepng_state_init,
         .lodepng_get_raw_size c.w c.h state.info_raw,
         .lodepng_free (some b),
         .lodepng_state_cleanup state]⟩
    else
      ⟨c.error, out, c.w, c.h, [.lodepng_decode_memory w h inp insize colortype bitdepth]⟩
  | none =>
    ⟨c.error, out, c.w, c.h, [.lodepng_decode_memory w h inp insize colortype bitdepth]⟩

/-- Embeds `unsigned decode(std::vector<unsigned char>& out, unsigned& w, unsigned& h, const std::vector<unsigned char>& in, LodePNGColorType colortype, unsigned bitdepth)`. -/
def decode_vec (core : Core R T DS CS) (out : List Byte) (w h : Nat) (inp : List Byte)
    (colortype : LodePNGColorType) (bitdepth : Nat) : DecodeResult R T DS CS :=
  decode core out w h (dataOrNull inp) (toUnsigned inp.length) colortype bitdepth

/-- Embeds `unsigned decode(std::vector<unsigned char>& out, unsigned& w, unsigned& h, State& state, const unsigned char* in, size_t insize)`. -/
def decode_state (core : Core R T DS CS) (out : List Byte) (w h : Nat) (state : State R T)
    (inp : InPtr) (insize : Nat) : DecodeResult R T DS CS × State R T :=
  let r := core.lodepng_decode w h state inp insize
  let c := r.1
  let state1 := r.2
  match c.buffer with
  | some b =>
    if c.error = 0 then
      let buffersize := core.lodepng_get_raw_size c.w c.h state1.info_raw
      (⟨c.error, out ++ readBytes b buffersize, c.w, c.h,
        [.lodepng_decode w h state inp insize,
         .lodepng_get_raw_size c.w c.h state1.info_raw,
         .lodepng_free (some b)]⟩, state1)
    else
      (⟨c.error, out, c.w, c.h,
        [.lodepng_decode w h state inp insize, .lodepng_free (some b)]⟩, state1)
  | none =>
    (⟨c.error, out, c.w, c.h,
      [.lodepng_decode w h state inp insize, .lodepng_free none]⟩, state1)

/-- Embeds `unsigned decode(std::vector<unsigned char>& out, unsigned& w, unsigned& h, State& state, const std::vector<unsigned char>& in)`. -/
def decode_state_vec (core : Core R T DS CS) (out : List Byte) (w h : Nat)
    (state : State R T) (inp : List Byte) : DecodeResult R T DS CS × State R T :=
  decode_state core out w h state (dataOrNull inp) inp.length

/-- Embeds `unsigned decode(std::vector<unsigned char>& out, unsigned& w, unsigned& h, const std::string& filename, LodePNGColorType colortype, unsigned bitdepth)`. -/
def decode_file (core : Core R T DS CS) (out : List Byte) (w h : Nat) (filename : String)
    (colortype : LodePNGColorType) (bitdepth : Nat) : DecodeResult R T DS CS :=
  let l := load_file core [] filename
  if l.error ≠ 0 then
    ⟨l.error, out, w, h, l.calls⟩
  else
    let d := decode_vec core out w h l.buffer colortype bitdepth
    { d with calls := l.calls ++ d.calls }

/-- Embeds `unsigned encode(std::vector<unsigned char>& out, const unsigned char* in, unsigned w, unsigned h, LodePNGColorType colortype, unsigned bitdepth)`. -/
def encode (core : Core R T DS CS) (out : List Byte) (inp : InPtr) (w h : Nat)
    (colortype : LodePNGColorType) (bitdepth : Nat) : OutResult R T DS CS :=
  appendIfBuffer (core.lodepng_encode_memory inp w h colortype bitdepth) out
    (.lodepng_encode_memory inp w h colortype bitdepth)

/-- Embeds `unsigned encode(std::vector<unsigned char>& out, const std::vector<unsigned char>& in, unsigned w, unsigned h, LodePNGColorType colortype, unsigned bitdepth)`. -/
def encode_vec (core : Core R T DS CS) (out : List Byte) (inp : List Byte) (w h : Nat)
    (colortype : LodePNGColorType) (bitdepth : Nat) : OutResult R T DS CS :=
  if core.lodepng_get_raw_size_lct w h colortype bitdepth > inp.length then
    ⟨84, out, [.lodepng_get_raw_size_lct w h colortype bitdepth]⟩
  else
    let r := encode core out (dataOrNull inp) w h colortype bitdepth
    { r with calls := .lodepng_get_raw_size_lct w h colortype bitdepth :: r.calls }

/-- Embeds `unsigned encode(std::vector<unsigned char>& out, const unsigned char* in, unsigned w, unsigned h, State& state)`. -/
def encode_state (core : Core R T DS CS) (out : List Byte) (inp : InPtr) (w h : Nat)
    (state : State R T) : OutResult R T DS CS × State R T :=
  let r := core.lodepng_encode inp w h state
  (appendIfBuffer r.1 out (.lodepng_encode inp w h state), r.2)

/-- Embeds `unsigned encode(std::vector<unsigned char>& out, const std::vector<unsigned char>& in, unsigned w, unsigned h, State& state)`. -/
def encode_state_vec (core : Core R T DS CS) (out : List Byte) (inp : List Byte)
    (w h : Nat) (state : State R T) : OutResult R T DS CS × State R T :=
  if core.lodepng_get_raw_size w h state.info_raw > inp.length then
    (⟨84, out, [.lodepng_get_raw_size w h state.info_raw]⟩, state)
  else
    let r := encode_state core out (dataOrNull inp) w h state
    ({ r.1 with calls := .lodepng_get_raw_size w h state.info_raw :: r.1.calls }, r.2)

/-- Embeds `unsigned encode(const std::string& filename, const unsigned char* in, unsigned w, unsigned h, LodePNGColorType colortype, unsigned bitdepth)`. -/
def encode_file (core : Core R T DS CS) (filename : String) (inp : InPtr) (w h : Nat)
    (colortype : LodePNGColorType) (bitdepth : Nat) : SaveResult R T DS CS :=
  let e := encode core [] inp w h colortype bitdepth
  if e.error = 0 then
    let s := save_file core e.out filename
    ⟨s.error, e.calls ++ s.calls⟩
  else
    ⟨e.error, e.calls⟩

/-- Embeds `unsigned encode(const std::string& filename, const std::vector<unsigned char>& in, unsigned w, unsigned h, LodePNGColorType colortype, unsigned bitdepth)`. -/
def encode_file_vec (core : Core R T DS CS) (filename : String) (inp : List Byte)
    (w h : Nat) (colortype : LodePNGColorType) (bitdepth : Nat) : SaveResult R T DS CS :=
  if core.lodepng_get_raw_size_lct w h colortype bitdepth > inp.length then
    ⟨84, [.lodepng_get_raw_size_lct w h colortype bitdepth]⟩
  else
    let r := encode_file core filename (dataOrNull inp) w h colortype bitdepth
    { r with calls := .lodepng_get_raw_size_lct w h colortype bitdepth :: r.calls }

end wrapper

/-- A core with fixed, simple answers, on which the wrappers can be
evaluated.  A file named `""` does not exist and any other file holds one
byte less than its name has characters; every raw size is `w * h`; the
decoder fails with 48 on a null input and otherwise reports a `2 x 1` image
whose buffer holds `10, 11, 12, ...`; the encoder and the two zlib functions
fail with 52 and no buffer on a null input, and otherwise hand back the
bytes `1, 2, 3, ...`, as many as the input size (the encoder: `w * h`). -/
def sampleCore : Core Unit Unit Unit Unit where
  lodepng_filesize := fun filename => if filename = "" then -1 else (filename.length : Int) - 1
  lodepng_buffer_file := fun _ size _ => (0, List.replicate size 7)
  lodepng_save_file := fun _ _ _ => 0
  zlib_decompress := fun inp insize _ =>
    match inp with
    | none => ⟨none, 0, 52⟩
    | some _ => ⟨some (fun i => (i + 1) % 256), insize, 0⟩
  zlib_compress := fun inp insize _ =>
    match inp with
    | none => ⟨none, 0, 52⟩
    | some _ => ⟨some (fun i => (i + 1) % 256), insize, 0⟩
  lodepng_get_raw_size_lct := fun w h _ _ => w * h
  lodepng_get_raw_size := fun w h _ => w * h
  lodepng_decode := fun w h state inp _ =>
    match inp with
    | none => (⟨some (fun _ => 9), w, h, 48⟩, state)
    | some _ => (⟨some (fun i => i + 10), 2, 1, 0⟩, state)
  lodepng_decode_memory := fun w h inp _ _ _ =>
    match inp with
    | none => ⟨some (fun _ => 9), w, h, 48⟩
    | some _ => ⟨some (fun i => i + 10), 2, 1, 0⟩
  lodepng_state_init := ⟨⟨6, 8, ()⟩, ()⟩
  lodepng_encode := fun inp w h state =>
    match inp with
    | none => (⟨none, 0, 52⟩, state)
    | some _ => (⟨some (fun i => (i + 1) % 256), w * h, 0⟩, state)
  lodepng_encode_memory := fun inp w h _ _ =>
    match inp with
    | none => ⟨none, 0, 52⟩
    | some _ => ⟨some (fun i => (i + 1) % 256), w * h, 0⟩

/-- The state handed to the `State` overloads when they are evaluated on
`sampleCore`: RGBA with 8 bits per channel. -/
def sampleState : State Unit Unit := ⟨⟨6, 8, ()⟩, ()⟩

section lemmas

variable {R T DS CS : Type}

/-- A vector has `n` elements after `resize(n)`. -/
theorem length_resize (buffer : List Byte) (n : Nat) : (resize buffer n).length = n := by
  simp only [resize, List.length_append, List.length_take, List.length_replicate]
  omega

/-- A vector is empty after `resize(0)`. -/
theorem resize_zero (buffer : List Byte) : resize buffer 0 = [] := by
  simp [resize]

/-- The range `[&buffer[0], &buffer[n])` is empty exactly when `n` is 0. -/
theorem readBytes_eq_nil_iff (b : Buffer) (n : Nat) : readBytes b n = [] ↔ n = 0 := by
  simp [readBytes]

/-- The shared block returns the error code of the core call. -/
theorem appendIfBuffer_error (c : CoreBytes) (out : List Byte) (call : Call R T DS CS) :
    (appendIfBuffer c out call).error = c.error := by
  rcases c with ⟨_ | b, n, e⟩ <;> rfl

/-- The shared block leaves `out` as it was exactly when the buffer is null
or the buffer size is 0. -/
theorem appendIfBuffer_out_eq_iff (c : CoreBytes) (out : List Byte) (call : Call R T DS CS) :
    (appendIfBuffer c out call).out = out ↔ (c.buffer = none ∨ c.buffersize = 0) := by
  rcases c with ⟨_ | b, n, e⟩
  · simp [appendIfBuffer]
  · simp [appendIfBuffer, readBytes_eq_nil_iff]

end lemmas

section claims

variable {R T DS CS : Type}

/-- C1: when the pixel vector is shorter than the raw size of the image
(`lodepng_get_raw_size_lct` for the overloads with a colour type and bit
depth, `lodepng_get_raw_size` on `state.info_raw` for the `State` overload),
each `encode` overload taking a `std::vector` of pixels returns 84, calls
neither the core encoder nor `lodepng_save_file` (its only call is the raw
size computation), and leaves `out` (and the state) as it was. -/
theorem encode_vec_short_input (core : Core R T DS CS) (out inp : List Byte) (w h : Nat)
    (colortype : LodePNGColorType) (bitdepth : Nat) (state : State R T) (filename : String) :
    (inp.length < core.lodepng_get_raw_size_lct w h colortype bitdepth →
      ((encode_vec core out inp w h colortype bitdepth).error = 84 ∧
        (encode_vec core out inp w h colortype bitdepth).out = out ∧
        (encode_vec core out inp w h colortype bitdepth).calls =
          [.lodepng_get_raw_size_lct w h colortype bitdepth] ∧
        ∀ c ∈ (encode_vec core out inp w h colortype bitdepth).calls,
          c.isCoreEncoder = false ∧ c.isSaveFile = false) ∧
      ((encode_file_vec core filename inp w h colortype bitdepth).error = 84 ∧
        (encode_file_vec core filename inp w h colortype bitdepth).calls =
          [.lodepng_get_raw_size_lct w h colortype bitdepth] ∧
        ∀ c ∈ (encode_file_vec core filename inp w h colortype bitdepth).calls,
          c.isCoreEncoder = false ∧ c.isSaveFile = false)) ∧
    (inp.length < core.lodepng_get_raw_size w h state.info_raw →
      (encode_state_vec core out inp w h state).1.error = 84 ∧
        (encode_state_vec core out inp w h state).1.out = out ∧
        (encode_state_vec core out inp w h state).2 = state ∧
        (encode_state_vec core out inp w h state).1.calls =
          [.lodepng_get_raw_size w h state.info_raw] ∧
        ∀ c ∈ (encode_state_vec core out inp w h state).1.calls,
          c.isCoreEncoder = false ∧ c.isSaveFile = false) := by
  refine ⟨fun hlt => ?_, fun hlt => ?_⟩
  · have hgt : core.lodepng_get_raw_size_lct w h colortype bitdepth > inp.length := hlt
    simp [encode_vec, encode_file_vec, hgt, Call.isCoreEncoder, Call.isSaveFile]
  · have hgt : core.lodepng_get_raw_size w h state.info_raw > inp.length := hlt
    simp [encode_state_vec, hgt, Call.isCoreEncoder, Call.isSaveFile]

/-- The statement of C1 at a 2 x 2 image with a 3 byte pixel vector, on
`sampleCore`, whose raw size for these dimensions is 4. -/
theorem encode_vec_short_input_witness :
    ([1, 2, 3].length < sampleCore.lodepng_get_raw_size_lct 2 2 6 8 ∧
      [1, 2, 3].length < sampleCore.lodepng_get_raw_size 2 2 sampleState.info_raw) ∧
    (encode_vec sampleCore [5] [1, 2, 3] 2 2 6 8).error = 84 ∧
    (encode_vec sampleCore [5] [1, 2, 3] 2 2 6 8).out = [5] ∧
    (encode_file_vec sampleCore "a.png" [1, 2, 3] 2 2 6 8).error = 84 ∧
    (encode_state_vec sampleCore [5] [1, 2, 3] 2 2 sampleState).1.error = 84 ∧
    (encode_state_vec sampleCore [5] [1, 2, 3] 2 2 sampleState).1.out = [5] := by
  have hlct : [1, 2, 3].length < sampleCore.lodepng_get_raw_size_lct 2 2 6 8 := by decide
  have hraw : [1, 2, 3].length < sampleCore.lodepng_get_raw_size 2 2 sampleState.info_raw := by
    decide
  have key := encode_vec_short_input sampleCore [5] [1, 2, 3] 2 2 6 8 sampleState "a.png"
  exact ⟨⟨hlct, hraw⟩, (key.1 hlct).1.1, (key.1 hlct).1.2.1, (key.1 hlct).2.1,
    (key.2 hraw).1, (key.2 hraw).2.1⟩

/-- C2: when an in-memory `decode` overload (pointer or vector input, with a
colour type and bit depth or with a `State`) returns a non-zero error code,
`out` is what it was before the call, whatever buffer the core decoder
handed back. -/
theorem decode_error_keeps_out (core : Core R T DS CS) (out : List Byte) (w h : Nat)
    (inp : InPtr) (insize : Nat) (vec : List Byte) (colortype : LodePNGColorType)
    (bitdepth : Nat) (state : State R T) :
    ((decode core out w h inp insize colortype bitdepth).error ≠ 0 →
      (decode core out w h inp insize colortype bitdepth).out = out) ∧
    ((decode_vec core out w h vec colortype bitdepth).error ≠ 0 →
      (decode_vec core out w h vec colortype bitdepth).out = out) ∧
    ((decode_state core out w h state inp insize).1.error ≠ 0 →
      (decode_state core out w h state inp insize).1.out = out) ∧
    ((decode_state_vec core out w h state vec).1.error ≠ 0 →
      (decode_state_vec core out w h state vec).1.out = out) := by
  have hmem : ∀ (p : InPtr) (n : Nat),
      (decode core out w h p n colortype bitdepth).error ≠ 0 →
        (decode core out w h p n colortype bitdepth).out = out := by
    intro p n
    simp only [decode]
    generalize core.lodepng_decode_memory w h p n colortype bitdepth = c
    rcases c with ⟨_ | b, cw, ch, ce⟩
    · simp
    · by_cases he : ce = 0 <;> simp [he]
  have hstate : ∀ (p : InPtr) (n : Nat),
      (decode_state core out w h state p n).1.error ≠ 0 →
        (decode_state core out w h state p n).1.out = out := by
    intro p n
    simp only [decode_state]
    generalize core.lodepng_decode w h state p n = r
    rcases r with ⟨⟨_ | b, cw, ch, ce⟩, state1⟩
    · simp
    · by_cases he : ce = 0 <;> simp [he]
  exact ⟨hmem inp insize, hmem _ _, hstate inp insize, hstate _ _⟩

/-- The statement of C2 on `sampleCore`, whose decoder answers a null input
with error 48 and a non-null buffer: `out` keeps its three bytes. -/
theorem decode_error_keeps_out_witness :
    (decode sampleCore [1, 2, 3] 0 0 none 0 6 8).error = 48 ∧
    (decode sampleCore [1, 2, 3] 0 0 none 0 6 8).out = [1, 2, 3] ∧
    (decode_vec sampleCore [1, 2, 3] 0 0 [] 6 8).out = [1, 2, 3] ∧
    (decode_state sampleCore [1, 2, 3] 0 0 sampleState none 0).1.out = [1, 2, 3] ∧
    (decode_state_vec sampleCore [1, 2, 3] 0 0 sampleState []).1.out = [1, 2, 3] := by
  have key := decode_error_keeps_out sampleCore [1, 2, 3] 0 0 none 0 [] 6 8 sampleState
  exact ⟨by decide, key.1 (by decide), key.2.1 (by decide), key.2.2.1 (by decide),
    key.2.2.2 (by decide)⟩

/-- C3: when the core decoder returns error 0 together with a non-null
buffer, `decode` returns 0, reports the width and height the core has set,
and `out` is its previous contents followed by the first `N` bytes of the
core's buffer, `N` being `lodepng_get_raw_size` of the reported dimensions
and of a freshly initialised `info_raw` carrying the requested colour type
and bit depth (for the `State` overload: of the state's `info_raw` after the
core call).  With `out` empty before the call, `out` is exactly these `N`
bytes. -/
theorem decode_success_appends (core : Core R T DS CS) (out : List Byte) (w h : Nat)
    (inp : InPtr) (insize : Nat) (colortype : LodePNGColorType) (bitdepth : Nat)
    (state : State R T) (b : Buffer) :
    ((core.lodepng_decode_memory w h inp insize colortype bitdepth).buffer = some b →
      (core.lodepng_decode_memory w h inp insize colortype bitdepth).error = 0 →
      (decode core out w h inp insize colortype bitdepth).error = 0 ∧
      (decode core out w h inp insize colortype bitdepth).w =
        (core.lodepng_decode_memory w h inp insize colortype bitdepth).w ∧
      (decode core out w h inp insize colortype bitdepth).h =
        (core.lodepng_decode_memory w h inp insize colortype bitdepth).h ∧
      (decode core out w h inp insize colortype bitdepth).out =
        out ++ readBytes b (core.lodepng_get_raw_size
          (decode core out w h inp insize colortype bitdepth).w
          (decode core out w h inp insize colortype bitdepth).h
          ⟨colortype, bitdepth, core.lodepng_state_init.info_raw.rest⟩) ∧
      (decode core [] w h inp insize colortype bitdepth).out =
        readBytes b (core.lodepng_get_raw_size
          (decode core [] w h inp insize colortype bitdepth).w
          (decode core [] w h inp insize colortype bitdepth).h
          ⟨colortype, bitdepth, core.lodepng_state_init.info_raw.rest⟩)) ∧
    ((core.lodepng_decode w h state inp insize).1.buffer = some b →
      (core.lodepng_decode w h state inp insize).1.error = 0 →
      (decode_state core out w h state inp insize).1.error = 0 ∧
      (decode_state core out w h state inp insize).1.w =
        (core.lodepng_decode w h state inp insize).1.w ∧
      (decode_state core out w h state inp insize).1.h =
        (core.lodepng_decode w h state inp insize).1.h ∧
      (decode_state core out w h state inp insize).2 =
        (core.lodepng_decode w h state inp insize).2 ∧
      (decode_state core out w h state inp insize).1.out =
        out ++ readBytes b (core.lodepng_get_raw_size
          (decode_state core out w h state inp insize).1.w
          (decode_state core out w h state inp insize).1.h
          (decode_state core out w h state inp insize).2.info_raw) ∧
      (decode_state core [] w h state inp insize).1.out =
        readBytes b (core.lodepng_get_raw_size
          (decode_state core [] w h state inp insize).1.w
          (decode_state core [] w h state inp insize).1.h
          (decode_state core [] w h state inp insize).2.info_raw)) := by
  constructor
  · simp only [decode]
    generalize core.lodepng_decode_memory w h inp insize colortype bitdepth = c
    rcases c with ⟨cb, cw, ch, ce⟩
    rintro ⟨rfl⟩ ⟨rfl⟩
    simp
  · simp only [decode_state]
    generalize core.lodepng_decode w h state inp insize = r
    rcases r with ⟨⟨cb, cw, ch, ce⟩, state1⟩
    rintro ⟨rfl⟩ ⟨rfl⟩
    simp

/-- The statement of C3 on `sampleCore`, whose decoder answers a non-null
input with a `2 x 1` image and the buffer `10, 11, 12, ...`; the raw size of
`sampleCore` for a `2 x 1` image is 2, so the bytes 10 and 11 are appended. -/
theorem decode_success_appends_witness :
    (sampleCore.lodepng_decode_memory 0 0 (some [1]) 1 6 8).buffer = some (fun i => i + 10) ∧
    (sampleCore.lodepng_decode_memory 0 0 (some [1]) 1 6 8).error = 0 ∧
    (decode sampleCore [1, 2, 3] 0 0 (some [1]) 1 6 8).error = 0 ∧
    (decode sampleCore [1, 2, 3] 0 0 (some [1]) 1 6 8).w = 2 ∧
    (decode sampleCore [1, 2, 3] 0 0 (some [1]) 1 6 8).h = 1 ∧
    (decode sampleCore [1, 2, 3] 0 0 (some [1]) 1 6 8).out = [1, 2, 3, 10, 11] ∧
    (decode sampleCore [] 0 0 (some [1]) 1 6 8).out = [10, 11] ∧
    (decode_state sampleCore [1, 2, 3] 0 0 sampleState (some [1]) 1).1.error = 0 ∧
    (decode_state sampleCore [1, 2, 3] 0 0 sampleState (some [1]) 1).1.out = [1, 2, 3, 10, 11] ∧
    (decode_state sampleCore [] 0 0 sampleState (some [1]) 1).1.out = [10, 11] := by
  have key := decode_success_appends sampleCore [1, 2, 3] 0 0 (some [1]) 1 6 8 sampleState
    (fun i => i + 10)
  have hm := key.1 rfl rfl
  have hs := key.2 rfl rfl
  refine ⟨rfl, rfl, hm.1, ?_, ?_, ?_, ?_, hs.1, ?_, ?_⟩
  · rw [hm.2.1]; rfl
  · rw [hm.2.2.1]; rfl
  · rw [hm.2.2.2.1]; rfl
  · rw [hm.2.2.2.2]; rfl
  · rw [hs.2.2.2.2.1]; rfl
  · rw [hs.2.2.2.2.2]; rfl

/-- C5: with a core that hands back bytes or an error, never both
(`CoreBytes.bytesOrError` of the core call made), whenever `encode` (pointer
overloads, with a colour type and bit depth or with a `State`), `compress`
or `decompress` (pointer and vector overloads) returns a non-zero error
code, `out` is exactly what it was before the call. -/
theorem error_keeps_out (core : Core R T DS CS) (out : List Byte) (inp : InPtr)
    (insize w h : Nat) (colortype : LodePNGColorType) (bitdepth : Nat) (state : State R T)
    (cs : CS) (ds : DS) (vec : List Byte) :
    ((core.lodepng_encode_memory inp w h colortype bitdepth).bytesOrError = true →
      (encode core out inp w h colortype bitdepth).error ≠ 0 →
      (encode core out inp w h colortype bitdepth).out = out) ∧
    ((core.lodepng_encode inp w h state).1.bytesOrError = true →
      (encode_state core out inp w h state).1.error ≠ 0 →
      (encode_state core out inp w h state).1.out = out) ∧
    ((core.zlib_compress inp insize cs).bytesOrError = true →
      (compress core out inp insize cs).error ≠ 0 →
      (compress core out inp insize cs).out = out) ∧
    ((core.zlib_decompress inp insize ds).bytesOrError = true →
      (decompress core out inp insize ds).error ≠ 0 →
      (decompress core out inp insize ds).out = out) ∧
    ((core.zlib_compress (dataOrNull vec) vec.length cs).bytesOrError = true →
      (compress_vec core out vec cs).error ≠ 0 →
      (compress_vec core out vec cs).out = out) ∧
    ((core.zlib_decompress (dataOrNull vec) vec.length ds).bytesOrError = true →
      (decompress_vec core out vec ds).error ≠ 0 →
      (decompress_vec core out vec ds).out = out) := by
  have key : ∀ (c : CoreBytes) (call : Call R T DS CS), c.bytesOrError = true →
      (appendIfBuffer c out call).error ≠ 0 → (appendIfBuffer c out call).out = out := by
    intro c call hc he
    rw [appendIfBuffer_error] at he
    refine (appendIfBuffer_out_eq_iff c out call).2 (Or.inl ?_)
    rcases c with ⟨_ | b, n, e⟩
    · rfl
    · simp [CoreBytes.bytesOrError] at hc
      exact absurd hc he
  exact ⟨key _ _, key _ _, key _ _, key _ _, key _ _, key _ _⟩

/-- The statement of C5 on `sampleCore`, whose encoder and zlib functions
answer a null input with error 52 and no buffer: `out` keeps its three
bytes. -/
theorem error_keeps_out_witness :
    (sampleCore.lodepng_encode_memory none 2 2 6 8).bytesOrError = true ∧
    (encode sampleCore [1, 2, 3] none 2 2 6 8).error = 52 ∧
    (encode sampleCore [1, 2, 3] none 2 2 6 8).out = [1, 2, 3] ∧
    (encode_state sampleCore [1, 2, 3] none 2 2 sampleState).1.out = [1, 2, 3] ∧
    (compress sampleCore [1, 2, 3] none 0 ()).out = [1, 2, 3] ∧
    (decompress sampleCore [1, 2, 3] none 0 ()).out = [1, 2, 3] ∧
    (compress_vec sampleCore [1, 2, 3] [] ()).out = [1, 2, 3] ∧
    (decompress_vec sampleCore [1, 2, 3] [] ()).out = [1, 2, 3] := by
  have key := error_keeps_out sampleCore [1, 2, 3] none 0 2 2 6 8 sampleState () () []
  exact ⟨by decide, by decide, key.1 (by decide) (by decide), key.2.1 (by decide) (by decide),
    key.2.2.1 (by decide) (by decide), key.2.2.2.1 (by decide) (by decide),
    key.2.2.2.2.1 (by decide) (by decide), key.2.2.2.2.2 (by decide) (by decide)⟩

/-- C6: when `lodepng_filesize` returns a negative value, `load_file` returns
78, its only call is the one to `lodepng_filesize` (so `lodepng_buffer_file`
is not called), and `buffer` is what it was before the call. -/
theorem load_file_negative_size (core : Core R T DS CS) (buffer : List Byte)
    (filename : String) (hneg : core.lodepng_filesize filename < 0) :
    (load_file core buffer filename).error = 78 ∧
    (load_file core buffer filename).buffer = buffer ∧
    (load_file core buffer filename).calls = [.lodepng_filesize filename] ∧
    ∀ c ∈ (load_file core buffer filename).calls, c.isBufferFile = false := by
  simp [load_file, hneg, Call.isBufferFile]

/-- The statement of C6 on `sampleCore`, for which the file `""` has no size. -/
theorem load_file_negative_size_witness :
    sampleCore.lodepng_filesize "" < 0 ∧
    (load_file sampleCore [1, 2, 3] "").error = 78 ∧
    (load_file sampleCore [1, 2, 3] "").buffer = [1, 2, 3] := by
  have hneg : sampleCore.lodepng_filesize "" < 0 := by decide
  have key := load_file_negative_size sampleCore [1, 2, 3] "" hneg
  exact ⟨hneg, key.1, key.2.1⟩

/-- C7: every call of `lodepng_buffer_file` that `load_file` makes has, as
its block, `buffer` resized to exactly `size = lodepng_filesize(filename)`
elements with `size > 0`, that same `size` as its size argument and
`filename` as its file, and `load_file` returns what that call returns; the
call is made whenever the size is positive; and when the size is 0,
`load_file` returns 0 with `buffer` empty and does not call
`lodepng_buffer_file`. -/
theorem load_file_buffer_file_precondition (core : Core R T DS CS) (buffer : List Byte)
    (filename : String) :
    (∀ block size name,
      Call.lodepng_buffer_file block size name ∈ (load_file core buffer filename).calls →
        0 < core.lodepng_filesize filename ∧
        (size : Int) = core.lodepng_filesize filename ∧
        block = resize buffer size ∧
        block.length = size ∧
        name = filename ∧
        (load_file core buffer filename).error =
          (core.lodepng_buffer_file block size name).1) ∧
    (0 < core.lodepng_filesize filename →
      Call.lodepng_buffer_file (resize buffer (core.lodepng_filesize filename).toNat)
        (core.lodepng_filesize filename).toNat filename ∈
          (load_file core buffer filename).calls) ∧
    (core.lodepng_filesize filename = 0 →
      (load_file core buffer filename).error = 0 ∧
      (load_file core buffer filename).buffer = [] ∧
      ∀ c ∈ (load_file core buffer filename).calls, c.isBufferFile = false) := by
  refine ⟨?_, ?_, ?_⟩
  · intro block size name hmem
    by_cases hneg : core.lodepng_filesize filename < 0
    · simp [load_file, hneg] at hmem
    · by_cases hzero : core.lodepng_filesize filename = 0
      · simp [load_file, hzero] at hmem
      · simp only [load_file, hneg, hzero, if_false, List.mem_cons, List.mem_singleton,
          List.not_mem_nil, or_false, Call.lodepng_buffer_file.injEq, false_or,
          reduceCtorEq] at hmem
        obtain ⟨hblock, hsize, hname⟩ := hmem
        have hpos : 0 < core.lodepng_filesize filename := by omega
        have hcast : ((core.lodepng_filesize filename).toNat : Int) =
            core.lodepng_filesize filename := Int.toNat_of_nonneg (le_of_lt hpos)
        subst hsize hname hblock
        refine ⟨hpos, hcast, rfl, length_resize _ _, rfl, ?_⟩
        simp [load_file, hneg, hzero]
  · intro hpos
    have hneg : ¬ core.lodepng_filesize filename < 0 := by omega
    have hzero : ¬ core.lodepng_filesize filename = 0 := by omega
    simp [load_file, hneg, hzero]
  · intro hzero
    simp [load_file, hzero, resize_zero, Call.isBufferFile]

/-- The statement of C7 on `sampleCore`: the file `"abc"` holds 2 bytes, so
`lodepng_buffer_file` is called on the 2 element block `[1, 0]` obtained by
resizing `[1]`, with size 2, and the file `"a"` holds 0 bytes, so `load_file`
returns 0 with an empty `buffer`. -/
theorem load_file_buffer_file_precondition_witness :
    Call.lodepng_buffer_file [1, 0] 2 "abc" ∈ (load_file sampleCore [1] "abc").calls ∧
    (0 : Int) < sampleCore.lodepng_filesize "abc" ∧
    ((2 : Nat) : Int) = sampleCore.lodepng_filesize "abc" ∧
    [1, 0] = resize [1] 2 ∧
    (load_file sampleCore [1] "abc").error = (sampleCore.lodepng_buffer_file [1, 0] 2 "abc").1 ∧
    sampleCore.lodepng_filesize "a" = 0 ∧
    (load_file sampleCore [1, 2, 3] "a").error = 0 ∧
    (load_file sampleCore [1, 2, 3] "a").buffer = [] := by
  have key := load_file_buffer_file_precondition sampleCore [1] "abc"
  have key0 := load_file_buffer_file_precondition sampleCore [1, 2, 3] "a"
  have hpos : (0 : Int) < sampleCore.lodepng_filesize "abc" := by decide
  have hmem : Call.lodepng_buffer_file [1, 0] 2 "abc" ∈ (load_file sampleCore [1] "abc").calls :=
    key.2.1 hpos
  have hcall := key.1 [1, 0] 2 "abc" hmem
  have hzero : sampleCore.lodepng_filesize "a" = 0 := by decide
  exact ⟨hmem, hcall.1, hcall.2.1, hcall.2.2.1, hcall.2.2.2.2.2, hzero, (key0.2.2 hzero).1,
    (key0.2.2 hzero).2.1⟩

/-- C8: the vector overload of `decode` with a colour type and bit depth
hands the pointer overload the vector's data and `(unsigned)in.size()`, that
is `in.size()` modulo `2 ^ 32`, and this is the size the core decoder is
called with; for a vector of fewer than `2 ^ 32` bytes its result is that of
the pointer overload called with the vector's data and `in.size()`; the
vector overload with a `State` hands over `in.size()` itself, for every
vector. -/
theorem decode_vec_forwards_size (core : Core R T DS CS) (out : List Byte) (w h : Nat)
    (inp : List Byte) (colortype : LodePNGColorType) (bitdepth : Nat) (state : State R T) :
    decode_vec core out w h inp colortype bitdepth =
      decode core out w h (dataOrNull inp) (inp.length % 2 ^ 32) colortype bitdepth ∧
    (decode_vec core out w h inp colortype bitdepth).calls.head? =
      some (.lodepng_decode_memory w h (dataOrNull inp) (inp.length % 2 ^ 32)
        colortype bitdepth) ∧
    (inp.length < 2 ^ 32 →
      decode_vec core out w h inp colortype bitdepth =
        decode core out w h (dataOrNull inp) inp.length colortype bitdepth) ∧
    decode_state_vec core out w h state inp =
      decode_state core out w h state (dataOrNull inp) inp.length ∧
    (decode_state_vec core out w h state inp).1.calls.head? =
      some (.lodepng_decode w h state (dataOrNull inp) inp.length) := by
  refine ⟨rfl, ?_, fun hlt => ?_, rfl, ?_⟩
  · simp only [decode_vec, decode, toUnsigned]
    generalize core.lodepng_decode_memory w h (dataOrNull inp) (inp.length % 2 ^ 32)
      colortype bitdepth = c
    rcases c with ⟨_ | b, cw, ch, ce⟩
    · rfl
    · by_cases he : ce = 0 <;> simp [he]
  · simp only [decode_vec, toUnsigned, Nat.mod_eq_of_lt hlt]
  · simp only [decode_state_vec, decode_state]
    generalize core.lodepng_decode w h state (dataOrNull inp) inp.length = r
    rcases r with ⟨⟨_ | b, cw, ch, ce⟩, state1⟩
    · rfl
    · by_cases he : ce = 0 <;> simp [he]

/-- The statement of C8 on `sampleCore` and a two byte vector: the vector
overload and the pointer overload called with the size 2 agree, and both
append the decoded bytes 10 and 11. -/
theorem decode_vec_forwards_size_witness :
    [1, 2].length < 2 ^ 32 ∧
    decode_vec sampleCore [] 0 0 [1, 2] 6 8 = decode sampleCore [] 0 0 (some [1, 2]) 2 6 8 ∧
    (decode_vec sampleCore [] 0 0 [1, 2] 6 8).out = [10, 11] := by
  have hlt : [1, 2].length < 2 ^ 32 := by decide
  have key := decode_vec_forwards_size sampleCore [] 0 0 [1, 2] 6 8 sampleState
  exact ⟨hlt, key.2.2.1 hlt, by rw [key.2.2.1 hlt]; rfl⟩

end claims

end lodepng
